import Mathlib

set_option maxRecDepth 100000

/-!
Verification of the libpd ring buffer (`src/libpd_wrapper/util/ringbuffer.c`),
a fixed-capacity single-producer/single-consumer byte ring buffer.

Shallow embedding choices:
* The struct `ring_buffer` (fields `buf_ptr`, `size`, `write_idx`, `read_idx`)
  becomes a Lean structure; the backing storage `buf_ptr` is a `List Int`
  (bytes are opaque payload), `size`, `write_idx`, `read_idx` are `Int`
  (C `int` / `int32_t`; arithmetic is modelled as exact — overflow of 32-bit
  arithmetic could only occur for capacities near 2^31, out of scope here).
* A nullable `ring_buffer *` argument becomes `Option ring_buffer`.
* `malloc`/`calloc` are modelled as always succeeding; `calloc` zero-initialises,
  hence `List.replicate _ 0`.
* C's `%` on `int` truncates toward zero, so it is embedded as `Int.tmod`
  (which agrees with mathematical `mod` on the nonnegative operands that
  actually occur).
* `memcpy(dst + i, src, n)` on the backing list is `memWrite`;
  `memcpy(dst, src + i, n)` out of it is `memRead`. Both match `memcpy`
  exactly in the in-bounds cases the code reaches.
* The atomic intrinsics (`__sync_fetch_and_or(p, 0)` as an atomic load,
  `__sync_val_compare_and_swap` as the position store) are value-level
  load/store; their memory-ordering content is not representable in this
  sequential embedding.
-/

/-- The `ring_buffer` struct: backing storage, capacity, and the two
position counters. -/
structure ring_buffer where
  buf_ptr : List Int
  size : Int
  write_idx : Int
  read_idx : Int
deriving Repr, DecidableEq

/-- `memcpy(buf + idx, src, src.length)`: overwrite `buf` at offsets
`[idx, idx + src.length)` with `src`. Matches C `memcpy` whenever
`idx + src.length ≤ buf.length` (the only cases the code reaches). -/
def memWrite (buf : List Int) (idx : Nat) (src : List Int) : List Int :=
  buf.take idx ++ src ++ buf.drop (idx + src.length)

/-- `memcpy(dest, buf + idx, len)`: the `len` bytes of `buf` starting at
offset `idx`. -/
def memRead (buf : List Int) (idx len : Nat) : List Int :=
  (buf.drop idx).take len

/-- `rb_create`: fails when `size & 0xff` is nonzero (in two's complement
this tests `size % 256 != 0`, negatives included); otherwise allocates
zeroed storage of `size` bytes with both positions at 0. Allocation is
modelled as succeeding. -/
def rb_create (size : Int) : Option ring_buffer :=
  if size.tmod 256 ≠ 0 then none
  else some { buf_ptr := List.replicate size.toNat 0
              size := size
              write_idx := 0
              read_idx := 0 }

/-- Body of `rb_available_to_write` for a non-null buffer:
`(buffer->size + read_idx - write_idx - 1) % buffer->size`. -/
def rb_available_to_write_core (b : ring_buffer) : Int :=
  (b.size + b.read_idx - b.write_idx - 1).tmod b.size

/-- `rb_available_to_write`: the formula above for a non-null buffer,
`0` for a null one. -/
def rb_available_to_write : Option ring_buffer → Int
  | some b => rb_available_to_write_core b
  | none => 0

/-- Body of `rb_available_to_read` for a non-null buffer:
`(buffer->size + write_idx - read_idx) % buffer->size`. -/
def rb_available_to_read_core (b : ring_buffer) : Int :=
  (b.size + b.write_idx - b.read_idx).tmod b.size

/-- `rb_available_to_read`: the formula above for a non-null buffer,
`0` for a null one. -/
def rb_available_to_read : Option ring_buffer → Int
  | some b => rb_available_to_read_core b
  | none => 0

/-- Body of `rb_write_to_buffer` once `buffer` is known non-null: the
`len == 0` early success, the `len < 0 || len > rb_available_to_write`
failure, then the one- or two-piece copy and the position update
`(write_idx + len) % size`. Returns the C return value and the new state. -/
def rb_write_core (b : ring_buffer) (src : List Int) (len : Int) :
    Int × ring_buffer :=
  if len = 0 then (0, b)
  else if len < 0 ∨ rb_available_to_write (some b) < len then (-1, b)
  else
    let write_idx := b.write_idx
    let newbuf :=
      if write_idx + len ≤ b.size then
        memWrite b.buf_ptr write_idx.toNat (src.take len.toNat)
      else
        let d := b.size - write_idx
        memWrite (memWrite b.buf_ptr write_idx.toNat (src.take d.toNat)) 0
          ((src.drop d.toNat).take (len - d).toNat)
    (0, { b with buf_ptr := newbuf
                 write_idx := (write_idx + len).tmod b.size })

/-- `rb_write_to_buffer(buffer, src, len)`: `len == 0` succeeds before the
null test; a null buffer then fails; otherwise `rb_write_core`. -/
def rb_write_to_buffer (buffer : Option ring_buffer) (src : List Int)
    (len : Int) : Int × Option ring_buffer :=
  if len = 0 then (0, buffer)
  else
    match buffer with
    | none => (-1, none)
    | some b =>
      let r := rb_write_core b src len
      (r.1, some r.2)

/-- Body of `rb_read_from_buffer` once `buffer` is known non-null: the
`len == 0` early success, the `len < 0 || len > rb_available_to_read`
failure, then the one- or two-piece copy out of storage and the position
update `(read_idx + len) % size`. Returns the C return value, the bytes
copied into `dest`, and the new state. -/
def rb_read_core (b : ring_buffer) (len : Int) :
    Int × List Int × ring_buffer :=
  if len = 0 then (0, [], b)
  else if len < 0 ∨ rb_available_to_read (some b) < len then (-1, [], b)
  else
    let read_idx := b.read_idx
    let dest :=
      if read_idx + len ≤ b.size then
        memRead b.buf_ptr read_idx.toNat len.toNat
      else
        let d := b.size - read_idx
        memRead b.buf_ptr read_idx.toNat d.toNat ++
          memRead b.buf_ptr 0 (len - d).toNat
    (0, dest, { b with read_idx := (read_idx + len).tmod b.size })

/-- `rb_read_from_buffer(buffer, dest, len)`: `len == 0` succeeds before the
null test; a null buffer then fails; otherwise `rb_read_core`. Returns the
C return value, the bytes placed in `dest`, and the new state. -/
def rb_read_from_buffer (buffer : Option ring_buffer) (len : Int) :
    Int × List Int × Option ring_buffer :=
  if len = 0 then (0, [], buffer)
  else
    match buffer with
    | none => (-1, [], none)
    | some b =>
      let r := rb_read_core b len
      (r.1, r.2.1, some r.2.2)

/-- One client call on a live buffer: a write with some source bytes and
length, or a read with some length. -/
inductive rb_op where
  | write (src : List Int) (len : Int) : rb_op
  | read (len : Int) : rb_op
deriving Repr

/-- The state after one operation (failed operations leave the state as
they found it, so this is total). -/
def rb_step (b : ring_buffer) : rb_op → ring_buffer
  | .write src len => (rb_write_core b src len).2
  | .read len => (rb_read_core b len).2.2

/-- The state after a sequence of operations. -/
def rb_run (b : ring_buffer) (ops : List rb_op) : ring_buffer :=
  ops.foldl rb_step b

/-- The state invariant maintained by creation and every operation:
positive capacity, both positions in `[0, size)`, and storage of exactly
`size` bytes. -/
def ring_buffer.valid (b : ring_buffer) : Prop :=
  0 < b.size ∧ 0 ≤ b.write_idx ∧ b.write_idx < b.size ∧
    0 ≤ b.read_idx ∧ b.read_idx < b.size ∧ (b.buf_ptr.length : Int) = b.size

instance (b : ring_buffer) : Decidable b.valid := by
  unfold ring_buffer.valid; infer_instance

theorem drop_append_length_add (a b : List Int) (n : Nat) :
    (a ++ b).drop (a.length + n) = b.drop n := by
  rw [← List.drop_drop, List.drop_left]

theorem length_memWrite (buf src : List Int) (idx : Nat)
    (h : idx + src.length ≤ buf.length) :
    (memWrite buf idx src).length = buf.length := by
  simp [memWrite]
  omega

theorem take_drop_mid (A src B : List Int) (idx : Nat)
    (hA : A.length = idx) :
    ((A ++ (src ++ B)).drop idx).take src.length = src := by
  subst hA
  rw [List.drop_left, List.take_left]

theorem memRead_memWrite_self (buf src : List Int) (idx : Nat)
    (h : idx + src.length ≤ buf.length) :
    memRead (memWrite buf idx src) idx src.length = src := by
  unfold memRead memWrite
  rw [List.append_assoc]
  exact take_drop_mid _ _ _ _ (by simp; omega)

theorem memRead_memWrite_low (buf src : List Int) (idx len : Nat)
    (h : src.length ≤ idx) :
    memRead (memWrite buf 0 src) idx len = memRead buf idx len := by
  unfold memRead memWrite
  simp only [List.take_zero, List.nil_append, Nat.zero_add]
  obtain ⟨k, rfl⟩ : ∃ k, idx = src.length + k := ⟨idx - src.length, by omega⟩
  rw [drop_append_length_add, List.drop_drop]

theorem emod_shift (a n : Int) (h0 : 0 ≤ a) (h2 : a < 2 * n) :
    a % n = if a < n then a else a - n := by
  split
  · exact Int.emod_eq_of_lt h0 (by assumption)
  · have hlt : a - n < n := by omega
    have hge : 0 ≤ a - n := by omega
    rw [show a = a - n + n * 1 by ring, Int.add_mul_emod_self_left,
      Int.emod_eq_of_lt hge hlt]
    omega

theorem rb_avail_write_eq (b : ring_buffer) (hv : b.valid) :
    rb_available_to_write (some b) =
      (b.size + b.read_idx - b.write_idx - 1) % b.size := by
  obtain ⟨h1, h2, h3, h4, h5, h6⟩ := hv
  simp only [rb_available_to_write, rb_available_to_write_core]
  rw [Int.tmod_eq_emod (by omega) (by omega)]

theorem rb_avail_read_eq (b : ring_buffer) (hv : b.valid) :
    rb_available_to_read (some b) =
      (b.size + b.write_idx - b.read_idx) % b.size := by
  obtain ⟨h1, h2, h3, h4, h5, h6⟩ := hv
  simp only [rb_available_to_read, rb_available_to_read_core]
  rw [Int.tmod_eq_emod (by omega) (by omega)]

theorem rb_avail_write_bounds (b : ring_buffer) (hv : b.valid) :
    0 ≤ rb_available_to_write (some b) ∧
      rb_available_to_write (some b) ≤ b.size - 1 := by
  have h := rb_avail_write_eq b hv
  obtain ⟨h1, h2, h3, h4, h5, h6⟩ := hv
  rw [h]
  constructor
  · exact Int.emod_nonneg _ (by omega)
  · have := Int.emod_lt_of_pos (b.size + b.read_idx - b.write_idx - 1) h1
    omega

theorem rb_avail_read_bounds (b : ring_buffer) (hv : b.valid) :
    0 ≤ rb_available_to_read (some b) ∧
      rb_available_to_read (some b) ≤ b.size - 1 := by
  have h := rb_avail_read_eq b hv
  obtain ⟨h1, h2, h3, h4, h5, h6⟩ := hv
  rw [h, emod_shift _ _ (by omega) (by omega)]
  split <;> omega

theorem rb_avail_sum (b : ring_buffer) (hv : b.valid) :
    rb_available_to_read (some b) + rb_available_to_write (some b) =
      b.size - 1 := by
  rw [rb_avail_read_eq b hv, rb_avail_write_eq b hv]
  obtain ⟨h1, h2, h3, h4, h5, h6⟩ := hv
  rw [emod_shift _ _ (by omega) (by omega), emod_shift _ _ (by omega) (by omega)]
  rcases lt_trichotomy b.write_idx b.read_idx with h | h | h <;>
    · split <;> split <;> omega

theorem rb_write_core_valid (b : ring_buffer) (src : List Int) (len : Int)
    (hv : b.valid) :
    ((rb_write_core b src len).2).valid ∧
      (rb_write_core b src len).2.size = b.size ∧
      (rb_write_core b src len).2.read_idx = b.read_idx := by
  unfold rb_write_core
  split
  · exact ⟨hv, rfl, rfl⟩
  split
  · exact ⟨hv, rfl, rfl⟩
  rename_i hz hg
  push_neg at hg
  obtain ⟨hg1, hg2⟩ := hg
  have hpos : 0 < len := by omega
  have hub := (rb_avail_write_bounds b hv).2
  obtain ⟨h1, h2, h3, h4, h5, h6⟩ := hv
  have hidx : 0 ≤ (b.write_idx + len).tmod b.size ∧
      (b.write_idx + len).tmod b.size < b.size := by
    rw [Int.tmod_eq_emod (by omega) (by omega)]
    exact ⟨Int.emod_nonneg _ (by omega), Int.emod_lt_of_pos _ h1⟩
  refine ⟨⟨h1, hidx.1, hidx.2, h4, h5, ?_⟩, rfl, rfl⟩
  simp only []
  split
  · rename_i hfit
    rw [length_memWrite]
    · exact h6
    · simp only [List.length_take]
      omega
  · rename_i hsplit
    push_neg at hsplit
    rw [length_memWrite, length_memWrite]
    · exact h6
    · simp only [List.length_take]
      omega
    · rw [length_memWrite]
      · simp only [List.length_take, List.length_drop]
        omega
      · simp only [List.length_take]
        omega

theorem rb_read_core_valid (b : ring_buffer) (len : Int) (hv : b.valid) :
    ((rb_read_core b len).2.2).valid ∧
      (rb_read_core b len).2.2.size = b.size ∧
      (rb_read_core b len).2.2.write_idx = b.write_idx ∧
      (rb_read_core b len).2.2.buf_ptr = b.buf_ptr := by
  unfold rb_read_core
  split
  · exact ⟨hv, rfl, rfl, rfl⟩
  split
  · exact ⟨hv, rfl, rfl, rfl⟩
  rename_i hz hg
  push_neg at hg
  obtain ⟨hg1, hg2⟩ := hg
  obtain ⟨h1, h2, h3, h4, h5, h6⟩ := hv
  have hidx : 0 ≤ (b.read_idx + len).tmod b.size ∧
      (b.read_idx + len).tmod b.size < b.size := by
    rw [Int.tmod_eq_emod (by omega) (by omega)]
    exact ⟨Int.emod_nonneg _ (by omega), Int.emod_lt_of_pos _ h1⟩
  exact ⟨⟨h1, h2, h3, hidx.1, hidx.2, h6⟩, rfl, rfl, rfl⟩

theorem rb_step_valid (b : ring_buffer) (op : rb_op) (hv : b.valid) :
    (rb_step b op).valid ∧ (rb_step b op).size = b.size := by
  cases op with
  | write src len =>
    exact ⟨(rb_write_core_valid b src len hv).1,
      (rb_write_core_valid b src len hv).2.1⟩
  | read len =>
    exact ⟨(rb_read_core_valid b len hv).1,
      (rb_read_core_valid b len hv).2.1⟩

theorem rb_run_valid (ops : List rb_op) (b : ring_buffer) (hv : b.valid) :
    (rb_run b ops).valid ∧ (rb_run b ops).size = b.size := by
  induction ops generalizing b with
  | nil => exact ⟨hv, rfl⟩
  | cons op ops ih =>
    have hstep := rb_step_valid b op hv
    have := ih (rb_step b op) hstep.1
    exact ⟨this.1, this.2.trans hstep.2⟩

theorem rb_create_valid (size : Int) (h1 : 0 < size) (b : ring_buffer)
    (hb : rb_create size = some b) : b.valid ∧ b.size = size := by
  unfold rb_create at hb
  split at hb
  · exact absurd hb (by simp)
  · obtain rfl : _ = b := Option.some.inj hb
    refine ⟨⟨h1, le_refl 0, h1, le_refl 0, h1, ?_⟩, rfl⟩
    simp [Int.toNat_of_nonneg (le_of_lt h1)]

theorem rb_write_core_eq (b : ring_buffer) (src : List Int) (len : Int)
    (hz : len ≠ 0) (hok : ¬(len < 0 ∨ rb_available_to_write (some b) < len)) :
    rb_write_core b src len =
      (0, { b with
              buf_ptr :=
                if b.write_idx + len ≤ b.size then
                  memWrite b.buf_ptr b.write_idx.toNat (src.take len.toNat)
                else
                  memWrite
                    (memWrite b.buf_ptr b.write_idx.toNat
                      (src.take (b.size - b.write_idx).toNat)) 0
                    ((src.drop (b.size - b.write_idx).toNat).take
                      (len - (b.size - b.write_idx)).toNat)
              write_idx := (b.write_idx + len).tmod b.size }) := by
  unfold rb_write_core
  rw [if_neg hz, if_neg hok]

theorem rb_read_core_eq (b : ring_buffer) (len : Int)
    (hz : len ≠ 0) (hok : ¬(len < 0 ∨ rb_available_to_read (some b) < len)) :
    rb_read_core b len =
      (0,
        (if b.read_idx + len ≤ b.size then
          memRead b.buf_ptr b.read_idx.toNat len.toNat
        else
          memRead b.buf_ptr b.read_idx.toNat (b.size - b.read_idx).toNat ++
            memRead b.buf_ptr 0 (len - (b.size - b.read_idx)).toNat),
        { b with read_idx := (b.read_idx + len).tmod b.size }) := by
  unfold rb_read_core
  rw [if_neg hz, if_neg hok]

theorem rb_write_content (b : ring_buffer) (src : List Int) (len : Int)
    (hv : b.valid) (hpos : 0 < len) (hlen : (src.length : Int) = len)
    (havail : len ≤ rb_available_to_write (some b)) :
    (rb_write_core b src len).1 = 0 ∧
      (rb_write_core b src len).2.write_idx = (b.write_idx + len) % b.size ∧
      (b.write_idx + len ≤ b.size →
        memRead (rb_write_core b src len).2.buf_ptr b.write_idx.toNat
          len.toNat = src) ∧
      (b.size < b.write_idx + len →
        memRead (rb_write_core b src len).2.buf_ptr b.write_idx.toNat
            (b.size - b.write_idx).toNat =
          src.take (b.size - b.write_idx).toNat ∧
        memRead (rb_write_core b src len).2.buf_ptr 0
            (len - (b.size - b.write_idx)).toNat =
          src.drop (b.size - b.write_idx).toNat) := by
  have hub := (rb_avail_write_bounds b hv).2
  obtain ⟨h1, h2, h3, h4, h5, h6⟩ := hv
  rw [rb_write_core_eq b src len (by omega)
    (by push_neg; exact ⟨by omega, by omega⟩)]
  dsimp only
  refine ⟨rfl, Int.tmod_eq_emod (by omega) (by omega), ?_, ?_⟩
  · intro hfit
    rw [if_pos hfit]
    have hsrc : src.take len.toNat = src := List.take_of_length_le (by omega)
    rw [hsrc, show len.toNat = src.length by omega]
    exact memRead_memWrite_self _ _ _ (by omega)
  · intro hsplit
    rw [if_neg (by omega)]
    have hdle : (b.size - b.write_idx).toNat ≤ src.length := by omega
    have hs1 : (src.take (b.size - b.write_idx).toNat).length =
        (b.size - b.write_idx).toNat := by
      simp [List.length_take]
      omega
    have hs2 : ((src.drop (b.size - b.write_idx).toNat).take
        (len - (b.size - b.write_idx)).toNat).length =
        (len - (b.size - b.write_idx)).toNat := by
      simp [List.length_take]
      omega
    have hlen1 : (memWrite b.buf_ptr b.write_idx.toNat
        (src.take (b.size - b.write_idx).toNat)).length = b.buf_ptr.length := by
      rw [length_memWrite]
      omega
    constructor
    · rw [memRead_memWrite_low _ _ _ _ (by omega)]
      have := memRead_memWrite_self b.buf_ptr
        (src.take (b.size - b.write_idx).toNat) b.write_idx.toNat (by omega)
      rw [hs1] at this
      exact this
    · have := memRead_memWrite_self
        (memWrite b.buf_ptr b.write_idx.toNat
          (src.take (b.size - b.write_idx).toNat))
        ((src.drop (b.size - b.write_idx).toNat).take
          (len - (b.size - b.write_idx)).toNat) 0 (by omega)
      rw [hs2] at this
      rw [this, List.take_of_length_le (by simp [List.length_drop]; omega)]

theorem rb_avail_read_after_write (b : ring_buffer) (src : List Int)
    (len : Int) (hv : b.valid) (hempty : b.write_idx = b.read_idx)
    (hpos : 0 < len) (havail : len ≤ rb_available_to_write (some b)) :
    rb_available_to_read (some (rb_write_core b src len).2) = len := by
  have hv' := (rb_write_core_valid b src len hv).1
  rw [rb_avail_read_eq _ hv']
  have hub := (rb_avail_write_bounds b hv).2
  have hav := rb_avail_write_eq b hv
  obtain ⟨h1, h2, h3, h4, h5, h6⟩ := hv
  rw [rb_write_core_eq b src len (by omega)
    (by push_neg; exact ⟨by omega, by omega⟩)]
  dsimp only
  rw [hempty, Int.tmod_eq_emod (by omega) (by omega)]
  have hk : (b.read_idx + len) % b.size =
      b.read_idx + len - b.size * ((b.read_idx + len) / b.size) :=
    Int.emod_def _ _
  have hlb : len ≤ b.size - 1 := by omega
  rw [show b.size + (b.read_idx + len) % b.size - b.read_idx =
      len + b.size * (1 - (b.read_idx + len) / b.size) by rw [hk]; ring,
    Int.add_mul_emod_self_left, Int.emod_eq_of_lt (by omega) (by omega)]

theorem rb_write_to_buffer_some (b : ring_buffer) (src : List Int) (len : Int)
    (hz : len ≠ 0) :
    rb_write_to_buffer (some b) src len =
      ((rb_write_core b src len).1, some (rb_write_core b src len).2) := by
  unfold rb_write_to_buffer
  rw [if_neg hz]

theorem rb_read_from_buffer_some (b : ring_buffer) (len : Int) (hz : len ≠ 0) :
    rb_read_from_buffer (some b) len =
      ((rb_read_core b len).1, (rb_read_core b len).2.1,
        some (rb_read_core b len).2.2) := by
  unfold rb_read_from_buffer
  rw [if_neg hz]

theorem rb_empty_iff (b : ring_buffer) (hv : b.valid) :
    rb_available_to_read (some b) = 0 ↔ b.write_idx = b.read_idx := by
  rw [rb_avail_read_eq b hv]
  obtain ⟨h1, h2, h3, h4, h5, h6⟩ := hv
  rw [emod_shift _ _ (by omega) (by omega)]
  split <;> omega

/-- C1 (amended): for every valid buffer that is currently empty
(`availableToRead = 0`), writing a byte sequence `B` of length
`0 ≤ L ≤ availableToWrite` and then reading `L` bytes succeeds and yields
exactly `B`, including every `L` that makes the copy wrap around the end
of storage. -/
theorem claim1_round_trip (b : ring_buffer) (hv : b.valid)
    (hempty : rb_available_to_read (some b) = 0)
    (src : List Int) (len : Int) (hlen : (src.length : Int) = len)
    (h0 : 0 ≤ len) (havail : len ≤ rb_available_to_write (some b)) :
    (rb_write_to_buffer (some b) src len).1 = 0 ∧
      (rb_read_from_buffer (rb_write_to_buffer (some b) src len).2 len).1 = 0 ∧
      (rb_read_from_buffer (rb_write_to_buffer (some b) src len).2 len).2.1 =
        src := by
  have hempty' : b.write_idx = b.read_idx := (rb_empty_iff b hv).1 hempty
  rcases eq_or_lt_of_le h0 with hzero | hpos
  · have hsrc : src = [] := List.eq_nil_of_length_eq_zero (by omega)
    subst hsrc
    rw [← hzero]
    exact ⟨rfl, rfl, rfl⟩
  · have hz : len ≠ 0 := by omega
    have hcv := rb_write_core_valid b src len hv
    have har := rb_avail_read_after_write b src len hv hempty' hpos havail
    have content := rb_write_content b src len hv hpos hlen havail
    have hok2 : ¬(len < 0 ∨
        rb_available_to_read (some (rb_write_core b src len).2) < len) := by
      rw [har]
      omega
    rw [rb_write_to_buffer_some b src len hz]
    dsimp only
    rw [rb_read_from_buffer_some _ len hz,
      rb_read_core_eq (rb_write_core b src len).2 len hz hok2]
    dsimp only
    refine ⟨content.1, rfl, ?_⟩
    rw [hcv.2.2, hcv.2.1, ← hempty']
    by_cases hfit : b.write_idx + len ≤ b.size
    · rw [if_pos hfit]
      exact content.2.2.1 hfit
    · rw [if_neg hfit]
      obtain ⟨hA, hB⟩ := content.2.2.2 (by omega)
      rw [hA, hB, List.take_append_drop]

/-- C1 witness: a concrete wrap-around round trip on an empty buffer of
capacity 256 with both positions at 250 and ten bytes written. -/
theorem claim1_witness :
    (rb_write_to_buffer
        (some { buf_ptr := List.replicate 256 0, size := 256,
                write_idx := 250, read_idx := 250 })
        [1, 2, 3, 4, 5, 6, 7, 8, 9, 10] 10).1 = 0 ∧
      (rb_read_from_buffer
        (rb_write_to_buffer
          (some { buf_ptr := List.replicate 256 0, size := 256,
                  write_idx := 250, read_idx := 250 })
          [1, 2, 3, 4, 5, 6, 7, 8, 9, 10] 10).2 10).1 = 0 ∧
      (rb_read_from_buffer
        (rb_write_to_buffer
          (some { buf_ptr := List.replicate 256 0, size := 256,
                  write_idx := 250, read_idx := 250 })
          [1, 2, 3, 4, 5, 6, 7, 8, 9, 10] 10).2 10).2.1 =
        [1, 2, 3, 4, 5, 6, 7, 8, 9, 10] :=
  claim1_round_trip
    { buf_ptr := List.replicate 256 0, size := 256,
      write_idx := 250, read_idx := 250 }
    (by decide) (by decide) [1, 2, 3, 4, 5, 6, 7, 8, 9, 10] 10 (by decide)
    (by decide) (by decide)

/-- C1 counterexample to the claim as stated: on a buffer that already
holds one unread byte `9`, writing `B = [7]` (length `1`, well within
`availableToWrite`) and then reading one byte succeeds but yields the
older byte `9`, not `B`. -/
theorem claim1_counterexample :
    1 ≤ rb_available_to_write
        ((rb_write_to_buffer (rb_create 256) [9] 1).2) ∧
      (rb_read_from_buffer
        ((rb_write_to_buffer
          ((rb_write_to_buffer (rb_create 256) [9] 1).2) [7] 1).2) 1).1 = 0 ∧
      (rb_read_from_buffer
        ((rb_write_to_buffer
          ((rb_write_to_buffer (rb_create 256) [9] 1).2) [7] 1).2) 1).2.1 =
        [9] := by
  decide

/-- C2: for every buffer created with a positive capacity, after any
sequence of write and read operations (successful or failed),
`availableToRead + availableToWrite = capacity - 1`. -/
theorem claim2_conservation (size : Int) (h1 : 0 < size) (b0 : ring_buffer)
    (hb : rb_create size = some b0) (ops : List rb_op) :
    rb_available_to_read (some (rb_run b0 ops)) +
      rb_available_to_write (some (rb_run b0 ops)) = size - 1 := by
  have hc := rb_create_valid size h1 b0 hb
  have hr := rb_run_valid ops b0 hc.1
  rw [rb_avail_sum _ hr.1, hr.2, hc.2]

/-- C2 witness: capacity 256, one three-byte write, one two-byte read,
then one failed oversized write. -/
theorem claim2_witness :
    rb_available_to_read
        (some (rb_run
          { buf_ptr := List.replicate 256 0, size := 256,
            write_idx := 0, read_idx := 0 }
          [rb_op.write [1, 2, 3] 3, rb_op.read 2, rb_op.write [4] 999])) +
      rb_available_to_write
        (some (rb_run
          { buf_ptr := List.replicate 256 0, size := 256,
            write_idx := 0, read_idx := 0 }
          [rb_op.write [1, 2, 3] 3, rb_op.read 2, rb_op.write [4] 999])) =
      255 :=
  claim2_conservation 256 (by decide)
    { buf_ptr := List.replicate 256 0, size := 256,
      write_idx := 0, read_idx := 0 }
    (by decide) [rb_op.write [1, 2, 3] 3, rb_op.read 2, rb_op.write [4] 999]

/-- C3 (amended): `rb_create` fails exactly when the capacity is not a
multiple of 256 — positivity is not validated, so capacity 0 (and any
negative multiple of 256) passes the check, allocation being modelled as
succeeding; for every positive multiple of 256 the fresh buffer is empty
with `availableToRead = 0` and `availableToWrite = capacity - 1`. -/
theorem claim3_create (size : Int) :
    (¬ (256 : Int) ∣ size → rb_create size = none) ∧
      ((256 : Int) ∣ size → 0 < size →
        (rb_create size).isSome = true ∧
          rb_available_to_read (rb_create size) = 0 ∧
          rb_available_to_write (rb_create size) = size - 1) := by
  constructor
  · intro hnd
    unfold rb_create
    rw [if_pos (fun h => hnd (Int.dvd_of_tmod_eq_zero h))]
  · intro hdvd hpos
    have h0 : size.tmod 256 = 0 := Int.tmod_eq_zero_of_dvd hdvd
    unfold rb_create
    rw [if_neg (by simp [h0])]
    refine ⟨rfl, ?_, ?_⟩
    · simp only [rb_available_to_read, rb_available_to_read_core]
      rw [show size + 0 - 0 = size by ring, Int.tmod_self]
    · simp only [rb_available_to_write, rb_available_to_write_core]
      rw [show size + 0 - 0 - 1 = size - 1 by ring,
        Int.tmod_eq_of_lt (by omega) (by omega)]

/-- C3 witness: capacity 100 is rejected; capacity 256 yields an empty
buffer with `availableToWrite = 255`. -/
theorem claim3_witness :
    rb_create 100 = none ∧
      rb_available_to_write (rb_create 256) = 255 :=
  ⟨(claim3_create 100).1 (by decide),
    ((claim3_create 256).2 (by decide) (by decide)).2.2⟩

/-- C3 counterexample to the claim as stated: capacity 0 is not a
positive multiple of 256, yet `rb_create 0` passes the `size & 0xff`
check and returns a buffer. -/
theorem claim3_counterexample : (rb_create 0).isSome = true := by decide

/-- C4: for every valid non-null buffer, `rb_available_to_write` returns
`(capacity + read_position - write_position - 1) mod capacity` and
`rb_available_to_read` returns
`(capacity + write_position - read_position) mod capacity` (mathematical
`mod`); both queries return 0 on a null buffer rather than failing. -/
theorem claim4_available (b : ring_buffer) (hv : b.valid) :
    rb_available_to_write (some b) =
        (b.size + b.read_idx - b.write_idx - 1) % b.size ∧
      rb_available_to_read (some b) =
        (b.size + b.write_idx - b.read_idx) % b.size ∧
      rb_available_to_write none = 0 ∧
      rb_available_to_read none = 0 :=
  ⟨rb_avail_write_eq b hv, rb_avail_read_eq b hv, rfl, rfl⟩

/-- C4 witness: the formulas evaluated on a concrete buffer of capacity
256 with `write_idx = 10`, `read_idx = 5`. -/
theorem claim4_witness :
    rb_available_to_write
        (some { buf_ptr := List.replicate 256 0, size := 256,
                write_idx := 10, read_idx := 5 }) =
        (256 + 5 - 10 - 1) % 256 ∧
      rb_available_to_read
        (some { buf_ptr := List.replicate 256 0, size := 256,
                write_idx := 10, read_idx := 5 }) =
        (256 + 10 - 5) % 256 ∧
      rb_available_to_write none = 0 ∧
      rb_available_to_read none = 0 :=
  claim4_available
    { buf_ptr := List.replicate 256 0, size := 256,
      write_idx := 10, read_idx := 5 } (by decide)

theorem rb_write_core_fail (b : ring_buffer) (src : List Int) (len : Int)
    (hz : len ≠ 0) (hg : len < 0 ∨ rb_available_to_write (some b) < len) :
    rb_write_core b src len = (-1, b) := by
  unfold rb_write_core
  rw [if_neg hz, if_pos hg]

theorem rb_read_core_fail (b : ring_buffer) (len : Int)
    (hz : len ≠ 0) (hg : len < 0 ∨ rb_available_to_read (some b) < len) :
    rb_read_core b len = (-1, [], b) := by
  unfold rb_read_core
  rw [if_neg hz, if_pos hg]

/-- C5: for every call with nonzero length, `rb_write_to_buffer` fails
(returns -1) exactly when the buffer is absent, the length is negative,
or the length exceeds `availableToWrite` — and symmetrically for
`rb_read_from_buffer` with `availableToRead`; every such failure reads or
writes no bytes and leaves the buffer state (positions and storage)
unchanged. -/
theorem claim5_failure (buffer : Option ring_buffer) (src : List Int)
    (len : Int) (hz : len ≠ 0) :
    ((rb_write_to_buffer buffer src len).1 = -1 ↔
        buffer = none ∨ len < 0 ∨ rb_available_to_write buffer < len) ∧
      ((rb_write_to_buffer buffer src len).1 = -1 →
        (rb_write_to_buffer buffer src len).2 = buffer) ∧
      ((rb_read_from_buffer buffer len).1 = -1 ↔
        buffer = none ∨ len < 0 ∨ rb_available_to_read buffer < len) ∧
      ((rb_read_from_buffer buffer len).1 = -1 →
        (rb_read_from_buffer buffer len).2.1 = [] ∧
          (rb_read_from_buffer buffer len).2.2 = buffer) := by
  cases buffer with
  | none =>
    have hw : rb_write_to_buffer none src len = (-1, none) := by
      unfold rb_write_to_buffer
      rw [if_neg hz]
    have hr : rb_read_from_buffer none len = (-1, [], none) := by
      unfold rb_read_from_buffer
      rw [if_neg hz]
    rw [hw, hr]
    exact ⟨⟨fun _ => Or.inl rfl, fun _ => rfl⟩, fun _ => rfl,
      ⟨fun _ => Or.inl rfl, fun _ => rfl⟩, fun _ => ⟨rfl, rfl⟩⟩
  | some b =>
    rw [rb_write_to_buffer_some b src len hz, rb_read_from_buffer_some b len hz]
    constructor
    · by_cases hg : len < 0 ∨ rb_available_to_write (some b) < len
      · rw [rb_write_core_fail b src len hz hg]
        exact ⟨fun _ => Or.inr hg, fun _ => rfl⟩
      · rw [rb_write_core_eq b src len hz hg]
        push_neg at hg
        refine ⟨fun h => absurd h (by simp), fun h => ?_⟩
        rcases h with h | h | h
        · exact absurd h (by simp)
        · exact absurd h (by omega)
        · exact absurd h (by omega)
    constructor
    · by_cases hg : len < 0 ∨ rb_available_to_write (some b) < len
      · rw [rb_write_core_fail b src len hz hg]
        exact fun _ => rfl
      · rw [rb_write_core_eq b src len hz hg]
        exact fun h => absurd h (by simp)
    constructor
    · by_cases hg : len < 0 ∨ rb_available_to_read (some b) < len
      · rw [rb_read_core_fail b len hz hg]
        exact ⟨fun _ => Or.inr hg, fun _ => rfl⟩
      · rw [rb_read_core_eq b len hz hg]
        push_neg at hg
        refine ⟨fun h => absurd h (by simp), fun h => ?_⟩
        rcases h with h | h | h
        · exact absurd h (by simp)
        · exact absurd h (by omega)
        · exact absurd h (by omega)
    · by_cases hg : len < 0 ∨ rb_available_to_read (some b) < len
      · rw [rb_read_core_fail b len hz hg]
        exact fun _ => ⟨rfl, rfl⟩
      · rw [rb_read_core_eq b len hz hg]
        exact fun h => absurd h (by simp)

/-- C5 witness: on a fresh buffer of capacity 256, a write of length 300
(which exceeds `availableToWrite = 255`) fails and changes nothing, and a
read of length -1 fails. -/
theorem claim5_witness :
    ((rb_write_to_buffer
        (some { buf_ptr := List.replicate 256 0, size := 256,
                write_idx := 0, read_idx := 0 }) [] 300).1 = -1 ↔
      (some { buf_ptr := List.replicate 256 0, size := 256,
              write_idx := 0, read_idx := 0 } :
          Option ring_buffer) = none ∨ (300 : Int) < 0 ∨
        rb_available_to_write
          (some { buf_ptr := List.replicate 256 0, size := 256,
                  write_idx := 0, read_idx := 0 }) < 300) ∧
      ((rb_write_to_buffer
          (some { buf_ptr := List.replicate 256 0, size := 256,
                  write_idx := 0, read_idx := 0 }) [] 300).1 = -1 →
        (rb_write_to_buffer
          (some { buf_ptr := List.replicate 256 0, size := 256,
                  write_idx := 0, read_idx := 0 }) [] 300).2 =
          some { buf_ptr := List.replicate 256 0, size := 256,
                 write_idx := 0, read_idx := 0 }) :=
  ⟨(claim5_failure
      (some { buf_ptr := List.replicate 256 0, size := 256,
              write_idx := 0, read_idx := 0 }) [] 300 (by decide)).1,
    (claim5_failure
      (some { buf_ptr := List.replicate 256 0, size := 256,
              write_idx := 0, read_idx := 0 }) [] 300 (by decide)).2.1⟩

/-- C6: for every valid buffer and every successful write of length
`L > 0` starting at `write_position w` with capacity `C`: if
`w + L ≤ C` the source bytes land as one contiguous block at offset `w`,
otherwise they are split into exactly two contiguous pieces — the first
`C - w` source bytes at the tail and the remaining `L - (C - w)` at
offset 0 — and afterwards `write_position = (w + L) mod C`; symmetrically
a successful read of length `L` delivers either the contiguous block at
`read_position r` or the tail piece of `C - r` bytes followed by
`L - (C - r)` bytes from offset 0, and afterwards
`read_position = (r + L) mod C`. -/
theorem claim6_wrap_copy (b : ring_buffer) (hv : b.valid) (src : List Int)
    (len : Int) (hpos : 0 < len) (hlen : (src.length : Int) = len) :
    (len ≤ rb_available_to_write (some b) →
      (rb_write_core b src len).1 = 0 ∧
        (rb_write_core b src len).2.write_idx =
          (b.write_idx + len) % b.size ∧
        (b.write_idx + len ≤ b.size →
          memRead (rb_write_core b src len).2.buf_ptr b.write_idx.toNat
            len.toNat = src) ∧
        (b.size < b.write_idx + len →
          memRead (rb_write_core b src len).2.buf_ptr b.write_idx.toNat
              (b.size - b.write_idx).toNat =
            src.take (b.size - b.write_idx).toNat ∧
          memRead (rb_write_core b src len).2.buf_ptr 0
              (len - (b.size - b.write_idx)).toNat =
            src.drop (b.size - b.write_idx).toNat)) ∧
      (len ≤ rb_available_to_read (some b) →
        (rb_read_core b len).1 = 0 ∧
          (rb_read_core b len).2.2.read_idx =
            (b.read_idx + len) % b.size ∧
          (b.read_idx + len ≤ b.size →
            (rb_read_core b len).2.1 =
              memRead b.buf_ptr b.read_idx.toNat len.toNat) ∧
          (b.size < b.read_idx + len →
            (rb_read_core b len).2.1 =
              memRead b.buf_ptr b.read_idx.toNat
                  (b.size - b.read_idx).toNat ++
                memRead b.buf_ptr 0 (len - (b.size - b.read_idx)).toNat)) := by
  constructor
  · intro havail
    exact rb_write_content b src len hv hpos hlen havail
  · intro havail
    obtain ⟨h1, h2, h3, h4, h5, h6⟩ := hv
    rw [rb_read_core_eq b len (by omega)
      (by push_neg; exact ⟨by omega, by omega⟩)]
    dsimp only
    refine ⟨rfl, Int.tmod_eq_emod (by omega) (by omega), ?_, ?_⟩
    · intro hfit
      rw [if_pos hfit]
    · intro hsplit
      rw [if_neg (by omega)]

/-- C6 witness: capacity 256 with `write_idx = 250`, `read_idx = 100`; a
ten-byte write wraps (250 + 10 > 256) and a ten-byte read is contiguous. -/
theorem claim6_witness :
    (10 ≤ rb_available_to_write
        (some { buf_ptr := List.replicate 256 0, size := 256,
                write_idx := 250, read_idx := 100 }) →
      (rb_write_core
          { buf_ptr := List.replicate 256 0, size := 256,
            write_idx := 250, read_idx := 100 }
          [1, 2, 3, 4, 5, 6, 7, 8, 9, 10] 10).1 = 0 ∧
        (rb_write_core
            { buf_ptr := List.replicate 256 0, size := 256,
              write_idx := 250, read_idx := 100 }
            [1, 2, 3, 4, 5, 6, 7, 8, 9, 10] 10).2.write_idx =
          (250 + 10) % 256 ∧
        (250 + 10 ≤ (256 : Int) →
          memRead (rb_write_core
              { buf_ptr := List.replicate 256 0, size := 256,
                write_idx := 250, read_idx := 100 }
              [1, 2, 3, 4, 5, 6, 7, 8, 9, 10] 10).2.buf_ptr
            (Int.toNat 250) (Int.toNat 10) =
            [1, 2, 3, 4, 5, 6, 7, 8, 9, 10]) ∧
        ((256 : Int) < 250 + 10 →
          memRead (rb_write_core
              { buf_ptr := List.replicate 256 0, size := 256,
                write_idx := 250, read_idx := 100 }
              [1, 2, 3, 4, 5, 6, 7, 8, 9, 10] 10).2.buf_ptr
              (Int.toNat 250) (Int.toNat (256 - 250)) =
            List.take (Int.toNat (256 - 250))
              [1, 2, 3, 4, 5, 6, 7, 8, 9, 10] ∧
          memRead (rb_write_core
              { buf_ptr := List.replicate 256 0, size := 256,
                write_idx := 250, read_idx := 100 }
              [1, 2, 3, 4, 5, 6, 7, 8, 9, 10] 10).2.buf_ptr 0
              (Int.toNat (10 - (256 - 250))) =
            List.drop (Int.toNat (256 - 250))
              [1, 2, 3, 4, 5, 6, 7, 8, 9, 10])) ∧
      (10 ≤ rb_available_to_read
          (some { buf_ptr := List.replicate 256 0, size := 256,
                  write_idx := 250, read_idx := 100 }) →
        (rb_read_core
            { buf_ptr := List.replicate 256 0, size := 256,
              write_idx := 250, read_idx := 100 } 10).1 = 0 ∧
          (rb_read_core
              { buf_ptr := List.replicate 256 0, size := 256,
                write_idx := 250, read_idx := 100 } 10).2.2.read_idx =
            (100 + 10) % 256 ∧
          (100 + 10 ≤ (256 : Int) →
            (rb_read_core
                { buf_ptr := List.replicate 256 0, size := 256,
                  write_idx := 250, read_idx := 100 } 10).2.1 =
              memRead (List.replicate 256 0) (Int.toNat 100)
                (Int.toNat 10)) ∧
          ((256 : Int) < 100 + 10 →
            (rb_read_core
                { buf_ptr := List.replicate 256 0, size := 256,
                  write_idx := 250, read_idx := 100 } 10).2.1 =
              memRead (List.replicate 256 0) (Int.toNat 100)
                  (Int.toNat (256 - 100)) ++
                memRead (List.replicate 256 0) 0
                  (Int.toNat (10 - (256 - 100))))) :=
  claim6_wrap_copy
    { buf_ptr := List.replicate 256 0, size := 256,
      write_idx := 250, read_idx := 100 }
    (by decide) [1, 2, 3, 4, 5, 6, 7, 8, 9, 10] 10 (by decide) (by decide)

/-- C7: for every buffer (present or absent), a zero-length write or read
succeeds immediately and changes nothing: the state, and hence
`availableToRead`, `availableToWrite` and the storage contents, are
untouched. -/
theorem claim7_zero_length (buffer : Option ring_buffer) (src : List Int) :
    rb_write_to_buffer buffer src 0 = (0, buffer) ∧
      rb_read_from_buffer buffer 0 = (0, [], buffer) ∧
      rb_available_to_read (rb_write_to_buffer buffer src 0).2 =
        rb_available_to_read buffer ∧
      rb_available_to_write (rb_write_to_buffer buffer src 0).2 =
        rb_available_to_write buffer ∧
      rb_available_to_read (rb_read_from_buffer buffer 0).2.2 =
        rb_available_to_read buffer ∧
      rb_available_to_write (rb_read_from_buffer buffer 0).2.2 =
        rb_available_to_write buffer :=
  ⟨rfl, rfl, rfl, rfl, rfl, rfl⟩

/-- C8: for every buffer created with positive capacity `C`, after any
sequence of write and read operations both position counters lie in
`[0, C)`. -/
theorem claim8_position_range (size : Int) (h1 : 0 < size)
    (b0 : ring_buffer) (hb : rb_create size = some b0) (ops : List rb_op) :
    0 ≤ (rb_run b0 ops).write_idx ∧ (rb_run b0 ops).write_idx < size ∧
      0 ≤ (rb_run b0 ops).read_idx ∧ (rb_run b0 ops).read_idx < size := by
  have hc := rb_create_valid size h1 b0 hb
  have hr := rb_run_valid ops b0 hc.1
  obtain ⟨g1, g2, g3, g4, g5, g6⟩ := hr.1
  have hsz : (rb_run b0 ops).size = size := hr.2.trans hc.2
  omega

/-- C8 witness: capacity 256, a wrap-inducing operation sequence. -/
theorem claim8_witness :
    0 ≤ (rb_run
        { buf_ptr := List.replicate 256 0, size := 256,
          write_idx := 0, read_idx := 0 }
        [rb_op.write (List.replicate 200 7) 200, rb_op.read 150,
          rb_op.write (List.replicate 100 8) 100]).write_idx ∧
      (rb_run
        { buf_ptr := List.replicate 256 0, size := 256,
          write_idx := 0, read_idx := 0 }
        [rb_op.write (List.replicate 200 7) 200, rb_op.read 150,
          rb_op.write (List.replicate 100 8) 100]).write_idx < 256 ∧
      0 ≤ (rb_run
        { buf_ptr := List.replicate 256 0, size := 256,
          write_idx := 0, read_idx := 0 }
        [rb_op.write (List.replicate 200 7) 200, rb_op.read 150,
          rb_op.write (List.replicate 100 8) 100]).read_idx ∧
      (rb_run
        { buf_ptr := List.replicate 256 0, size := 256,
          write_idx := 0, read_idx := 0 }
        [rb_op.write (List.replicate 200 7) 200, rb_op.read 150,
          rb_op.write (List.replicate 100 8) 100]).read_idx < 256 :=
  claim8_position_range 256 (by decide)
    { buf_ptr := List.replicate 256 0, size := 256,
      write_idx := 0, read_idx := 0 }
    (by decide)
    [rb_op.write (List.replicate 200 7) 200, rb_op.read 150,
      rb_op.write (List.replicate 100 8) 100]

/-- C10: the zero-length check runs before the null-buffer check, so
`rb_write_to_buffer(NULL, _, 0)` and `rb_read_from_buffer(NULL, _, 0)`
return success (0), while for every nonzero length a null buffer yields
the failure value -1. -/
theorem claim10_null_zero_length (src : List Int) :
    rb_write_to_buffer none src 0 = (0, none) ∧
      rb_read_from_buffer none 0 = (0, [], none) ∧
      (∀ len : Int, len ≠ 0 →
        (rb_write_to_buffer none src len).1 = -1 ∧
          (rb_read_from_buffer none len).1 = -1) := by
  refine ⟨rfl, rfl, fun len hz => ⟨?_, ?_⟩⟩
  · unfold rb_write_to_buffer
    rw [if_neg hz]
  · unfold rb_read_from_buffer
    rw [if_neg hz]

/-- C10 witness: length 0 on a null buffer succeeds, length 5 fails. -/
theorem claim10_witness :
    rb_write_to_buffer none [] 0 = (0, none) ∧
      (rb_write_to_buffer none [] 5).1 = -1 ∧
      (rb_read_from_buffer none 5).1 = -1 :=
  ⟨(claim10_null_zero_length []).1,
    ((claim10_null_zero_length []).2.2 5 (by decide)).1,
    ((claim10_null_zero_length []).2.2 5 (by decide)).2⟩
